import Mathlib

/-!
# Shallow embedding of the `evvm-cafhe` Stylus contract and its `fhe-stylus` middleware

This file embeds, in Lean, the parts of the repository
`invisible-zkevvm/stylus-contracts` that the verified properties speak about:

* `fhe-stylus/src/signature.rs` — EIP-191 signature recovery
  (`SignatureRecover::signature_verification`, `recover_signer`,
  `split_signature`, `ecrecover`);
* `evvm-cafhe/src/lib.rs` — the `EVVMCafhe` contract: its storage, the
  public entry points (`initialize`, `order_coffee`, `withdraw_rewards`,
  `withdraw_funds`) and its view functions;
* `fhe-stylus/src/cofhe.rs` and `cofhe_interfaces.rs` — the CoFHE operation
  wrappers and the task-manager opcode/type constants;
* `fhe-stylus/src/fhe.rs` — the legacy `FHE` stub struct.

Machine integers (`U256`, `u8`, addresses, byte values) are modelled as `Nat`;
byte strings as `List Nat`; Rust `String` as Lean `String`.  External
collaborators (the EVVM core ledger, the keccak hash, the `ecrecover`
precompile, the CoFHE task manager) are modelled as explicit environment
records of uninterpreted response functions, and each entry point returns,
besides its `Result` and the updated storage, the list of ledger (`pay`)
calls it issued, so that ordering properties ("no state change before
settlement") are expressible.
-/

namespace EVVMCafheModel

/-- Addresses are 20-byte values; modelled as `Nat`. -/
abbrev Addr := Nat

/-- `ETHER_ADDRESS` — `Address::ZERO` (evvm-cafhe/src/lib.rs, line 66). -/
def ETHER_ADDRESS : Addr := 0

/-- `PRINCIPAL_TOKEN_ADDRESS` — the 20-byte address `0x…01`
(evvm-cafhe/src/lib.rs, lines 69–71). -/
def PRINCIPAL_TOKEN_ADDRESS : Addr := 1

/-! ## Signature recovery (`fhe-stylus/src/signature.rs`) -/

/-- `SignatureError` (signature.rs, lines 33–40). -/
inductive SignatureError where
  | InvalidLength
  | InvalidV
  | RecoveryFailed
deriving DecidableEq

/-- A big-endian byte list read as a number (used for the 20 address bytes the
`ecrecover` precompile returns). -/
def bytesToNat (bs : List Nat) : Nat :=
  bs.foldl (fun acc b => acc * 256 + b) 0

/-- The EIP-191 prefixed message built by `recover_signer`
(signature.rs, lines 118–125): the fixed prefix
`"\x19Ethereum Signed Message:\n"`, then the decimal byte length of the
message, then the message itself.  Concatenating the strings and then taking
UTF-8 bytes equals concatenating the byte vectors as the Rust code does. -/
def ethMessageString (message : String) : String :=
  "\x19Ethereum Signed Message:\n" ++ toString message.utf8ByteSize ++ message

/-- The cryptographic environment of the signature library: `keccak` is the
keccak256 hash (its 32-byte output read as a number), and `precompile` is the
raw `ecrecover` precompile at address `0x01` applied to
(message hash, v, r, s); `none` models a failed raw call, `some out` the
returned bytes. -/
structure SigEnv where
  keccak : String → Nat
  precompile : Nat → Nat → List Nat → List Nat → Option (List Nat)

/-- `SignatureRecover::split_signature` (signature.rs, lines 149–178):
reject non-65-byte input with `InvalidLength`; r is bytes 0..32, s is bytes
32..64, v is byte 64; v below 27 is raised by 27; any resulting v other than
27 or 28 is rejected with `InvalidV`. -/
def split_signature (signature : List Nat) :
    Except SignatureError (List Nat × List Nat × Nat) :=
  if signature.length ≠ 65 then
    .error .InvalidLength
  else
    let r := signature.take 32
    let s := (signature.drop 32).take 32
    let v0 := signature.getD 64 0
    let v := if v0 < 27 then v0 + 27 else v0
    if v ≠ 27 ∧ v ≠ 28 then
      .error .InvalidV
    else
      .ok (r, s, v)

/-- `SignatureRecover::ecrecover` (signature.rs, lines 193–238): call the
precompile on (hash, v, r, s); a failed call or an output shorter than
32 bytes is `RecoveryFailed`; otherwise the address is output bytes 12..32. -/
def ecrecover (env : SigEnv) (message_hash : Nat) (v : Nat)
    (r s : List Nat) : Except SignatureError Addr :=
  match env.precompile message_hash v r s with
  | none => .error .RecoveryFailed
  | some output =>
      if 32 ≤ output.length then
        .ok (bytesToNat ((output.drop 12).take 20))
      else
        .error .RecoveryFailed

/-- `SignatureRecover::recover_signer` (signature.rs, lines 113–135):
hash the EIP-191 wrapping of the message with keccak256, split the signature
and run `ecrecover`. -/
def recover_signer (env : SigEnv) (message : String) (signature : List Nat) :
    Except SignatureError Addr :=
  let message_hash := env.keccak (ethMessageString message)
  match split_signature signature with
  | .error e => .error e
  | .ok (r, s, v) => ecrecover env message_hash v r s

/-- `SignatureRecover::signature_verification` (signature.rs, lines 82–97):
build `"<evvmID>,<functionName>,<inputs>"`, recover the signer, and compare
with the expected signer. -/
def signature_verification (env : SigEnv)
    (evvm_id function_name inputs : String) (signature : List Nat)
    (expected_signer : Addr) : Except SignatureError Bool :=
  let message := evvm_id ++ "," ++ function_name ++ "," ++ inputs
  match recover_signer env message signature with
  | .error e => .error e
  | .ok recovered_signer => .ok (recovered_signer == expected_signer)

/-! ## The `EVVMCafhe` contract (`evvm-cafhe/src/lib.rs`) -/

/-- The error byte strings of the contract's `errors` module
(lib.rs, lines 58–63). -/
inductive CafheError where
  | InvalidSignature
  | NonceAlreadyUsed
  | Unauthorized
  | PaymentFailed
deriving DecidableEq

/-- `InEuint64` (fhe-stylus/src/cofhe_interfaces.rs, lines 28–33). -/
structure InEuint64 where
  ct_hash : Nat
  security_zone : Nat
  utype : Nat
  signature : List Nat
deriving DecidableEq

/-- The argument tuple of one `IEVVMCore::pay` call, in the order the
contract passes it (lib.rs, lines 192–213). -/
structure PayArgs where
  from_addr : Addr
  to_addr : Addr
  to_identity : String
  token : Addr
  amount_plaintext : Nat
  amount_ct_hash : Nat
  amount_security_zone : Nat
  amount_utype : Nat
  amount_signature : List Nat
  priority_fee_plaintext : Nat
  fee_ct_hash : Nat
  fee_security_zone : Nat
  fee_utype : Nat
  fee_signature : List Nat
  nonce : Nat
  priority_flag : Bool
  executor : Addr
  signature : List Nat
deriving DecidableEq

/-- The contract's storage (lib.rs, lines 74–86): the EVVM core address, the
shop owner, and the per-client used-nonce map. -/
structure EVVMCafhe where
  evvm_core : Addr
  owner_of_shop : Addr
  check_async_nonce : Addr → Nat → Bool

/-- One call's ambient environment: the transaction sender and the contract's
own address, the signature-library crypto environment, and the EVVM core
collaborator's responses (`evvm_id`: `none` models a failed call;
`pay_ok args` tells whether the `pay` call with those arguments succeeds). -/
structure Env where
  msg_sender : Addr
  contract_address : Addr
  sig : SigEnv
  evvm_id : Option Nat
  pay_ok : PayArgs → Bool

/-- The observable outcome of one entry-point call: the returned `Result`,
the storage after the call, and the `IEVVMCore::pay` calls issued, in order. -/
structure CallOut where
  res : Except CafheError Unit
  state : EVVMCafhe
  ledger_calls : List PayArgs

/-- `EVVMCafhe::initialize` (lib.rs, lines 96–108): unconditionally store the
EVVM core address and the owner and return `Ok(())`. -/
def init_contract (st : EVVMCafhe) (evvm_core_address owner_of_shop : Addr) :
    CallOut :=
  ⟨.ok (), { st with evvm_core := evvm_core_address,
                     owner_of_shop := owner_of_shop }, []⟩

/-- `EVVMCafhe::order_coffee` (lib.rs, lines 133–223): fetch the EVVM id
(failure maps to `PaymentFailed`), verify the client signature over
`"<evvmID>,orderCoffee,<coffeeType>,<quantity>,<totalPrice>,<nonce>"`,
reject a used `(client_address, nonce)` entry, call `pay` on the EVVM core,
and only then mark the nonce used. -/
def order_coffee (env : Env) (st : EVVMCafhe)
    (client_address : Addr) (coffee_type : String) (quantity : Nat)
    (total_price_plaintext : Nat) (input_encrypted_total_price : InEuint64)
    (nonce : Nat) (signature : List Nat)
    (priority_fee_plaintext : Nat) (input_encrypted_priority_fee : InEuint64)
    (nonce_evvm : Nat) (priority_flag_evvm : Bool) : CallOut :=
  match env.evvm_id with
  | none => ⟨.error .PaymentFailed, st, []⟩
  | some evvm_id =>
    let inputs := coffee_type ++ "," ++ toString quantity ++ "," ++
      toString total_price_plaintext ++ "," ++ toString nonce
    match signature_verification env.sig (toString evvm_id) "orderCoffee"
        inputs signature client_address with
    | .error _ => ⟨.error .InvalidSignature, st, []⟩
    | .ok is_valid =>
      if !is_valid then
        ⟨.error .InvalidSignature, st, []⟩
      else
        let nonce_used := st.check_async_nonce client_address nonce
        if nonce_used then
          ⟨.error .NonceAlreadyUsed, st, []⟩
        else
          let args : PayArgs :=
            { from_addr := client_address
              to_addr := env.contract_address
              to_identity := ""
              token := ETHER_ADDRESS
              amount_plaintext := total_price_plaintext
              amount_ct_hash := input_encrypted_total_price.ct_hash
              amount_security_zone := input_encrypted_total_price.security_zone
              amount_utype := input_encrypted_total_price.utype
              amount_signature := input_encrypted_total_price.signature
              priority_fee_plaintext := priority_fee_plaintext
              fee_ct_hash := input_encrypted_priority_fee.ct_hash
              fee_security_zone := input_encrypted_priority_fee.security_zone
              fee_utype := input_encrypted_priority_fee.utype
              fee_signature := input_encrypted_priority_fee.signature
              nonce := nonce_evvm
              priority_flag := priority_flag_evvm
              executor := 0
              signature := [] }
          if env.pay_ok args then
            ⟨.ok (),
              { st with check_async_nonce := fun a n =>
                  if a = client_address ∧ n = nonce then true
                  else st.check_async_nonce a n },
              [args]⟩
          else
            ⟨.error .PaymentFailed, st, [args]⟩

/-- `EVVMCafhe::withdraw_rewards` (lib.rs, lines 237–280): only the shop
owner may call; transfers principal tokens from the contract via `pay`;
performs no storage write. -/
def withdraw_rewards (env : Env) (st : EVVMCafhe) (to_addr : Addr)
    (input_encrypted_balance : InEuint64) (nonce_evvm : Nat)
    (priority_flag_evvm : Bool) (input_encrypted_priority_fee : InEuint64) :
    CallOut :=
  if env.msg_sender ≠ st.owner_of_shop then
    ⟨.error .Unauthorized, st, []⟩
  else
    let args : PayArgs :=
      { from_addr := env.contract_address
        to_addr := to_addr
        to_identity := ""
        token := PRINCIPAL_TOKEN_ADDRESS
        amount_plaintext := 0
        amount_ct_hash := input_encrypted_balance.ct_hash
        amount_security_zone := input_encrypted_balance.security_zone
        amount_utype := input_encrypted_balance.utype
        amount_signature := input_encrypted_balance.signature
        priority_fee_plaintext := 0
        fee_ct_hash := input_encrypted_priority_fee.ct_hash
        fee_security_zone := input_encrypted_priority_fee.security_zone
        fee_utype := input_encrypted_priority_fee.utype
        fee_signature := input_encrypted_priority_fee.signature
        nonce := nonce_evvm
        priority_flag := priority_flag_evvm
        executor := 0
        signature := [] }
    if env.pay_ok args then ⟨.ok (), st, [args]⟩
    else ⟨.error .PaymentFailed, st, [args]⟩

/-- `EVVMCafhe::withdraw_funds` (lib.rs, lines 294–337): like
`withdraw_rewards` but transferring ETH (`ETHER_ADDRESS`). -/
def withdraw_funds (env : Env) (st : EVVMCafhe) (to_addr : Addr)
    (input_encrypted_balance : InEuint64) (nonce_evvm : Nat)
    (priority_flag_evvm : Bool) (input_encrypted_priority_fee : InEuint64) :
    CallOut :=
  if env.msg_sender ≠ st.owner_of_shop then
    ⟨.error .Unauthorized, st, []⟩
  else
    let args : PayArgs :=
      { from_addr := env.contract_address
        to_addr := to_addr
        to_identity := ""
        token := ETHER_ADDRESS
        amount_plaintext := 0
        amount_ct_hash := input_encrypted_balance.ct_hash
        amount_security_zone := input_encrypted_balance.security_zone
        amount_utype := input_encrypted_balance.utype
        amount_signature := input_encrypted_balance.signature
        priority_fee_plaintext := 0
        fee_ct_hash := input_encrypted_priority_fee.ct_hash
        fee_security_zone := input_encrypted_priority_fee.security_zone
        fee_utype := input_encrypted_priority_fee.utype
        fee_signature := input_encrypted_priority_fee.signature
        nonce := nonce_evvm
        priority_flag := priority_flag_evvm
        executor := 0
        signature := [] }
    if env.pay_ok args then ⟨.ok (), st, [args]⟩
    else ⟨.error .PaymentFailed, st, [args]⟩

/-- `EVVMCafhe::is_this_nonce_used` (lib.rs, lines 344–349). -/
def is_this_nonce_used (st : EVVMCafhe) (client_address : Addr)
    (nonce : Nat) : Bool :=
  st.check_async_nonce client_address nonce

/-- `EVVMCafhe::get_principal_token_address` (lib.rs, lines 352–354). -/
def get_principal_token_address : Addr := PRINCIPAL_TOKEN_ADDRESS

/-- `EVVMCafhe::get_ether_address` (lib.rs, lines 357–359). -/
def get_ether_address : Addr := ETHER_ADDRESS

/-- `EVVMCafhe::get_evvm_address` (lib.rs, lines 377–379). -/
def get_evvm_address (st : EVVMCafhe) : Addr := st.evvm_core

/-- `EVVMCafhe::get_owner` (lib.rs, lines 382–384). -/
def get_owner (st : EVVMCafhe) : Addr := st.owner_of_shop

/-- The method names of the contract's single `#[public] impl EVVMCafhe`
block (lib.rs, lines 89–385), in source order.  The former balance
accessors `get_amount_of_principal_token_in_shop` and
`get_amount_of_ether_in_shop` do not appear: the source removed them and
documents the removal in the comment at lib.rs lines 361–374. -/
def public_functions : List String :=
  ["initialize", "order_coffee", "withdraw_rewards", "withdraw_funds",
   "is_this_nonce_used", "get_principal_token_address", "get_ether_address",
   "get_evvm_address", "get_owner"]

/-! ## Multi-call execution

The mutating entry points of the contract, as one step relation, to state
reachability ("in every subsequent reachable state") properties. -/

/-- One invocation of a mutating public entry point, with its arguments. -/
inductive Op where
  | opInit (evvm_core_address owner_of_shop : Addr)
  | opOrderCoffee (client_address : Addr) (coffee_type : String)
      (quantity total_price_plaintext : Nat)
      (input_encrypted_total_price : InEuint64) (nonce : Nat)
      (signature : List Nat) (priority_fee_plaintext : Nat)
      (input_encrypted_priority_fee : InEuint64) (nonce_evvm : Nat)
      (priority_flag_evvm : Bool)
  | opWithdrawRewards (to_addr : Addr) (input_encrypted_balance : InEuint64)
      (nonce_evvm : Nat) (priority_flag_evvm : Bool)
      (input_encrypted_priority_fee : InEuint64)
  | opWithdrawFunds (to_addr : Addr) (input_encrypted_balance : InEuint64)
      (nonce_evvm : Nat) (priority_flag_evvm : Bool)
      (input_encrypted_priority_fee : InEuint64)

/-- The storage after executing one entry point in environment `env`. -/
def step (env : Env) (st : EVVMCafhe) : Op → EVVMCafhe
  | .opInit a o => (init_contract st a o).state
  | .opOrderCoffee c ct q tp ep n sg pf epf ne fl =>
      (order_coffee env st c ct q tp ep n sg pf epf ne fl).state
  | .opWithdrawRewards t bal ne fl fee =>
      (withdraw_rewards env st t bal ne fl fee).state
  | .opWithdrawFunds t bal ne fl fee =>
      (withdraw_funds env st t bal ne fl fee).state

/-- The storage after a sequence of entry-point calls, each with its own
environment. -/
def run (st : EVVMCafhe) : List (Env × Op) → EVVMCafhe
  | [] => st
  | (env, op) :: rest => run (step env st op) rest

/-! ## CoFHE wrappers (`fhe-stylus/src/cofhe.rs`, `cofhe_interfaces.rs`) -/

/-- `CoFHEError` (cofhe.rs, lines 16–25). -/
inductive CoFHEError where
  | TaskManagerCallFailed
  | InvalidInput
  | AccessDenied
  | OperationFailed
deriving DecidableEq

/-! The `FunctionId` opcode numbers (cofhe_interfaces.rs, lines 77–110),
`as u8`. -/
namespace FunctionId

def Select : Nat := 4
def Sub : Nat := 7
def Add : Nat := 8
def And : Nat := 10
def Or : Nat := 11
def Mul : Nat := 15
def Eq : Nat := 24
def TrivialEncrypt : Nat := 26

end FunctionId

/-! The TFHE type-tag constants of the `Utils` module
(cofhe_interfaces.rs, lines 115–124). -/
namespace Utils

def EUINT8_TFHE : Nat := 2
def EUINT16_TFHE : Nat := 3
def EUINT32_TFHE : Nat := 4
def EUINT64_TFHE : Nat := 5
def EUINT128_TFHE : Nat := 6
def EUINT256_TFHE : Nat := 8
def EADDRESS_TFHE : Nat := 7
def EBOOL_TFHE : Nat := 0

end Utils

/-- The argument tuple of one `ITaskManager::createTask` call
(cofhe_interfaces.rs, lines 144–149), in declaration order. -/
structure TaskCall where
  returnType : Nat
  funcId : Nat
  encryptedInputs : List Nat
  extraInputs : List Nat
deriving DecidableEq

/-- The task-manager collaborator: the result handle a `createTask` call
returns (`none` models a failed call). -/
structure TaskEnv where
  create_task : TaskCall → Option Nat

/-- Encrypted handles (`Euint64`, `Euint32`, `Euint256`, `Ebool` in
types.rs) are opaque 32-byte values; their `into_inner()` numbers are
modelled as `Nat`. -/
abbrev Handle := Nat

namespace CoFHE

/-- `CoFHE::add` (cofhe.rs, lines 167–183): submit
`createTask(EUINT64_TFHE, Add, [lhs, rhs], [])`; a failed call maps to
`TaskManagerCallFailed`.  The issued `createTask` calls are returned
alongside the result. -/
def add (env : TaskEnv) (lhs rhs : Handle) :
    Except CoFHEError Handle × List TaskCall :=
  let tc : TaskCall := ⟨Utils.EUINT64_TFHE, FunctionId.Add, [lhs, rhs], []⟩
  match env.create_task tc with
  | none => (.error .TaskManagerCallFailed, [tc])
  | some result => (.ok result, [tc])

/-- `CoFHE::sub` (cofhe.rs, lines 186–202):
`createTask(EUINT64_TFHE, Sub, [lhs, rhs], [])`. -/
def sub (env : TaskEnv) (lhs rhs : Handle) :
    Except CoFHEError Handle × List TaskCall :=
  let tc : TaskCall := ⟨Utils.EUINT64_TFHE, FunctionId.Sub, [lhs, rhs], []⟩
  match env.create_task tc with
  | none => (.error .TaskManagerCallFailed, [tc])
  | some result => (.ok result, [tc])

/-- `CoFHE::mul` (cofhe.rs, lines 205–221):
`createTask(EUINT64_TFHE, Mul, [lhs, rhs], [])`. -/
def mul (env : TaskEnv) (lhs rhs : Handle) :
    Except CoFHEError Handle × List TaskCall :=
  let tc : TaskCall := ⟨Utils.EUINT64_TFHE, FunctionId.Mul, [lhs, rhs], []⟩
  match env.create_task tc with
  | none => (.error .TaskManagerCallFailed, [tc])
  | some result => (.ok result, [tc])

/-- `CoFHE::eq` (cofhe.rs, lines 224–240):
`createTask(EBOOL_TFHE, Eq, [lhs, rhs], [])`. -/
def eq (env : TaskEnv) (lhs rhs : Handle) :
    Except CoFHEError Handle × List TaskCall :=
  let tc : TaskCall := ⟨Utils.EBOOL_TFHE, FunctionId.Eq, [lhs, rhs], []⟩
  match env.create_task tc with
  | none => (.error .TaskManagerCallFailed, [tc])
  | some result => (.ok result, [tc])

/-- `CoFHE::and` (cofhe.rs, lines 243–259):
`createTask(EBOOL_TFHE, And, [lhs, rhs], [])`. -/
def and (env : TaskEnv) (lhs rhs : Handle) :
    Except CoFHEError Handle × List TaskCall :=
  let tc : TaskCall := ⟨Utils.EBOOL_TFHE, FunctionId.And, [lhs, rhs], []⟩
  match env.create_task tc with
  | none => (.error .TaskManagerCallFailed, [tc])
  | some result => (.ok result, [tc])

/-- `CoFHE::or` (cofhe.rs, lines 262–278):
`createTask(EBOOL_TFHE, Or, [lhs, rhs], [])`. -/
def or (env : TaskEnv) (lhs rhs : Handle) :
    Except CoFHEError Handle × List TaskCall :=
  let tc : TaskCall := ⟨Utils.EBOOL_TFHE, FunctionId.Or, [lhs, rhs], []⟩
  match env.create_task tc with
  | none => (.error .TaskManagerCallFailed, [tc])
  | some result => (.ok result, [tc])

/-- `CoFHE::select` (cofhe.rs, lines 281–298):
`createTask(EUINT32_TFHE, Select, [condition, if_true, if_false], [])`. -/
def select (env : TaskEnv) (condition if_true if_false : Handle) :
    Except CoFHEError Handle × List TaskCall :=
  let tc : TaskCall :=
    ⟨Utils.EUINT32_TFHE, FunctionId.Select,
     [condition, if_true, if_false], []⟩
  match env.create_task tc with
  | none => (.error .TaskManagerCallFailed, [tc])
  | some result => (.ok result, [tc])

end CoFHE

/-! ## Legacy `FHE` stub struct (`fhe-stylus/src/fhe.rs`) -/

/-- `FHEError` (fhe.rs, lines 59–70). -/
inductive FHEError where
  | PrecompileCallFailed
  | InvalidInput
  | AccessDenied
  | InvalidProof
  | OperationFailed
deriving DecidableEq

namespace FHE

/-- `FHE::from_external` (fhe.rs, lines 76–78): stub, always
`Err(OperationFailed)`. -/
def from_external (_input : Handle) (_proof : List Nat) :
    Except FHEError Handle :=
  .error .OperationFailed

/-- `FHE::add` (fhe.rs, lines 83–85): stub, always `Err(OperationFailed)`. -/
def add (_lhs _rhs : Handle) : Except FHEError Handle :=
  .error .OperationFailed

/-- `FHE::sub` (fhe.rs, lines 90–92): stub, always `Err(OperationFailed)`. -/
def sub (_lhs _rhs : Handle) : Except FHEError Handle :=
  .error .OperationFailed

/-- `FHE::mul` (fhe.rs, lines 97–99): stub, always `Err(OperationFailed)`. -/
def mul (_lhs _rhs : Handle) : Except FHEError Handle :=
  .error .OperationFailed

/-- `FHE::allow` (fhe.rs, lines 104–106): stub, always
`Err(OperationFailed)`. -/
def allow (_handle : Handle) (_account : Addr) : Except FHEError Unit :=
  .error .OperationFailed

end FHE

/-! ## The canonical order message -/

/-- Comma-join of a list of strings. -/
def comma_join : List String → String
  | [] => ""
  | x :: [] => x
  | x :: y :: xs => x ++ "," ++ comma_join (y :: xs)

/-- The canonical message of the `orderCoffee` operation, as the spec words
it: the comma-join of the EVVM id, the operation name, and the four fields
in their fixed declared order. -/
def canonical_order_message
    (evvm_id coffee_type quantity total_price nonce : String) : String :=
  comma_join [evvm_id, "orderCoffee", coffee_type, quantity,
              total_price, nonce]

/-! ## Concrete instantiation fixtures -/

/-- A concrete crypto environment: the hash is constantly 0 and the
`ecrecover` precompile answers with 32 zero bytes, so recovery yields
address 0. -/
def sigEnvC : SigEnv := ⟨fun _ => 0, fun _ _ _ _ => some (List.replicate 32 0)⟩

/-- A concrete call environment whose ledger accepts every `pay`. -/
def envPayOk : Env := ⟨0, 9, sigEnvC, some 1, fun _ => true⟩

/-- A concrete call environment whose ledger rejects every `pay`. -/
def envPayFail : Env := ⟨0, 9, sigEnvC, some 1, fun _ => false⟩

/-- Fresh storage: owner 0, no nonce used. -/
def stC : EVVMCafhe := ⟨0, 0, fun _ _ => false⟩

/-- Storage whose shop owner is address 3. -/
def stOwner3 : EVVMCafhe := ⟨0, 3, fun _ _ => false⟩

/-- Storage in which client 0 has already used nonce 7. -/
def stUsed : EVVMCafhe := ⟨0, 0, fun a n => a == 0 && n == 7⟩

/-- A well-formed 65-byte signature with v = 27. -/
def sigC : List Nat := List.replicate 64 0 ++ [27]

/-- A concrete encrypted-input operand. -/
def epC : InEuint64 := ⟨0, 0, 0, []⟩

/-! ## Helper lemmas -/

/-- Closed form of `split_signature`: explicit length guard and acceptance
exactly of final bytes 0, 1, 27, 28. -/
lemma split_signature_eq (sig : List Nat) :
    split_signature sig =
      if sig.length = 65 then
        (if sig.getD 64 0 = 0 ∨ sig.getD 64 0 = 1 ∨ sig.getD 64 0 = 27 ∨
            sig.getD 64 0 = 28 then
          .ok (sig.take 32, (sig.drop 32).take 32,
               if sig.getD 64 0 < 27 then sig.getD 64 0 + 27
               else sig.getD 64 0)
        else .error .InvalidV)
      else .error .InvalidLength := by
  simp only [split_signature]
  split_ifs <;> first | rfl | omega

/-- `split_signature` on a 64-byte prefix plus an accepted final byte. -/
lemma split_signature_append (bs : List Nat) (x : Nat) (hbs : bs.length = 64)
    (hx : x = 0 ∨ x = 1 ∨ x = 27 ∨ x = 28) :
    split_signature (bs ++ [x]) =
      .ok (bs.take 32, (bs.drop 32).take 32, if x < 27 then x + 27 else x) := by
  have hlen : (bs ++ [x]).length = 65 := by simp [hbs]
  have hg : (bs ++ [x]).getD 64 0 = x := by
    simp [List.getD, List.getElem?_append_right, hbs]
  have ht : (bs ++ [x]).take 32 = bs.take 32 :=
    List.take_append_of_le_length (by omega)
  have hd : (bs ++ [x]).drop 32 = bs.drop 32 ++ [x] :=
    List.drop_append_of_le_length (by omega)
  have hs : ((bs ++ [x]).drop 32).take 32 = (bs.drop 32).take 32 := by
    rw [hd, List.take_append_of_le_length (by simp [hbs])]
  rw [split_signature_eq, if_pos hlen, hg, ht, hs, if_pos hx]

/-- `withdraw_rewards` never writes storage. -/
lemma withdraw_rewards_state (env : Env) (st : EVVMCafhe) (t : Addr)
    (bal : InEuint64) (ne : Nat) (fl : Bool) (fee : InEuint64) :
    (withdraw_rewards env st t bal ne fl fee).state = st := by
  simp only [withdraw_rewards]
  split
  · rfl
  · split <;> rfl

/-- `withdraw_funds` never writes storage. -/
lemma withdraw_funds_state (env : Env) (st : EVVMCafhe) (t : Addr)
    (bal : InEuint64) (ne : Nat) (fl : Bool) (fee : InEuint64) :
    (withdraw_funds env st t bal ne fl fee).state = st := by
  simp only [withdraw_funds]
  split
  · rfl
  · split <;> rfl

/-- The message built by `order_coffee`/`signature_verification` is the
comma-join of the EVVM id, the operation name, and the four order fields. -/
lemma order_message_eq (eidS ct qS tpS nS : String) :
    eidS ++ "," ++ "orderCoffee" ++ "," ++ (ct ++ "," ++ qS ++ "," ++ tpS ++
        "," ++ nS) =
      canonical_order_message eidS ct qS tpS nS := by
  simp only [canonical_order_message, comma_join]
  simp only [String.append_assoc]

/-! ## The claims -/

/-- C4: `split_signature` errors with `InvalidLength` exactly on non-65-byte
input; on 65 bytes it takes r as bytes 0..32 and s as bytes 32..64, adds 27
to a final byte below 27, errors with `InvalidV` exactly when the result is
neither 27 nor 28 — so precisely final bytes 0, 1, 27, 28 are accepted —
and a signature ending in 0 (resp. 1) yields the same (r, s, v) triple, and
the same `signature_verification` outcome, as the one ending in 27
(resp. 28). -/
theorem split_signature_spec (sig bs : List Nat) (env : SigEnv)
    (evvm_id function_name inputs : String) (expected_signer : Addr)
    (hbs : bs.length = 64) :
    (split_signature sig = .error .InvalidLength ↔ sig.length ≠ 65) ∧
    (split_signature sig = .error .InvalidV ↔
      sig.length = 65 ∧ ¬(sig.getD 64 0 = 0 ∨ sig.getD 64 0 = 1 ∨
        sig.getD 64 0 = 27 ∨ sig.getD 64 0 = 28)) ∧
    (sig.length = 65 →
      split_signature sig =
        if sig.getD 64 0 = 0 ∨ sig.getD 64 0 = 1 ∨ sig.getD 64 0 = 27 ∨
            sig.getD 64 0 = 28 then
          .ok (sig.take 32, (sig.drop 32).take 32,
               if sig.getD 64 0 < 27 then sig.getD 64 0 + 27
               else sig.getD 64 0)
        else .error .InvalidV) ∧
    split_signature (bs ++ [0]) = split_signature (bs ++ [27]) ∧
    split_signature (bs ++ [1]) = split_signature (bs ++ [28]) ∧
    signature_verification env evvm_id function_name inputs (bs ++ [0])
        expected_signer =
      signature_verification env evvm_id function_name inputs (bs ++ [27])
        expected_signer ∧
    signature_verification env evvm_id function_name inputs (bs ++ [1])
        expected_signer =
      signature_verification env evvm_id function_name inputs (bs ++ [28])
        expected_signer := by
  have h0 : split_signature (bs ++ [0]) =
      .ok (bs.take 32, (bs.drop 32).take 32, 27) := by
    simpa using split_signature_append bs 0 hbs (by omega)
  have h27 : split_signature (bs ++ [27]) =
      .ok (bs.take 32, (bs.drop 32).take 32, 27) := by
    simpa using split_signature_append bs 27 hbs (by omega)
  have h1 : split_signature (bs ++ [1]) =
      .ok (bs.take 32, (bs.drop 32).take 32, 28) := by
    simpa using split_signature_append bs 1 hbs (by omega)
  have h28 : split_signature (bs ++ [28]) =
      .ok (bs.take 32, (bs.drop 32).take 32, 28) := by
    simpa using split_signature_append bs 28 hbs (by omega)
  refine ⟨?_, ?_, ?_, ?_, ?_, ?_, ?_⟩
  · rw [split_signature_eq]
    by_cases h : sig.length = 65
    · rw [if_pos h]
      simp only [h, ne_eq, not_true_eq_false, iff_false]
      split_ifs <;> simp
    · rw [if_neg h]
      simp [h]
  · rw [split_signature_eq]
    by_cases h : sig.length = 65
    · rw [if_pos h]
      simp only [h, true_and]
      split_ifs with hv
      · exact iff_of_false (by simp) (fun hc => hc hv)
      · exact iff_of_true rfl hv
    · rw [if_neg h]
      simp [h]
  · intro h
    rw [split_signature_eq, if_pos h]
  · rw [h0, h27]
  · rw [h1, h28]
  · simp only [signature_verification, recover_signer]
    rw [h0, h27]
  · simp only [signature_verification, recover_signer]
    rw [h1, h28]

/-- Witness for C4 at a concrete 64-byte prefix and a 63-byte input. -/
theorem split_signature_spec_witness :
    split_signature (List.replicate 64 5 ++ [0]) =
      split_signature (List.replicate 64 5 ++ [27]) ∧
    (split_signature (List.replicate 63 5) = .error .InvalidLength ↔
      (List.replicate 63 5).length ≠ 65) := by
  have h := split_signature_spec (List.replicate 63 5) (List.replicate 64 5)
    sigEnvC "1" "orderCoffee" "x" 0 (by simp)
  exact ⟨h.2.2.2.1, h.1⟩

/-- C5: for every caller other than the stored shop owner, both
`withdraw_rewards` and `withdraw_funds` return `Unauthorized` with no
ledger call issued and the storage unchanged. -/
theorem withdraw_unauthorized (env : Env) (st : EVVMCafhe) (to_addr : Addr)
    (bal : InEuint64) (ne : Nat) (fl : Bool) (fee : InEuint64)
    (h : env.msg_sender ≠ st.owner_of_shop) :
    withdraw_rewards env st to_addr bal ne fl fee =
      ⟨.error .Unauthorized, st, []⟩ ∧
    withdraw_funds env st to_addr bal ne fl fee =
      ⟨.error .Unauthorized, st, []⟩ := by
  constructor
  · unfold withdraw_rewards
    rw [if_pos h]
  · unfold withdraw_funds
    rw [if_pos h]

/-- Witness for C5: sender 0 against owner 3. -/
theorem withdraw_unauthorized_witness :
    withdraw_rewards envPayOk stOwner3 1 epC 0 false epC =
      ⟨.error .Unauthorized, stOwner3, []⟩ ∧
    withdraw_funds envPayOk stOwner3 1 epC 0 false epC =
      ⟨.error .Unauthorized, stOwner3, []⟩ :=
  withdraw_unauthorized envPayOk stOwner3 1 epC 0 false epC (by decide)

/-- C6: `initialize` always succeeds: in every state it overwrites the
stored EVVM core address and shop owner with its arguments, touches nothing
else, and a repeated call overwrites them again. -/
theorem init_contract_unconditional (st : EVVMCafhe) (a o a2 o2 : Addr) :
    (init_contract st a o).res = .ok () ∧
    (init_contract st a o).state.evvm_core = a ∧
    (init_contract st a o).state.owner_of_shop = o ∧
    (init_contract st a o).state.check_async_nonce = st.check_async_nonce ∧
    (init_contract (init_contract st a o).state a2 o2).res = .ok () ∧
    (init_contract (init_contract st a o).state a2 o2).state.evvm_core = a2 ∧
    (init_contract (init_contract st a o).state a2 o2).state.owner_of_shop =
      o2 :=
  ⟨rfl, rfl, rfl, rfl, rfl, rfl, rfl⟩

/-- C7: every CoFHE operation wrapper submits exactly one `createTask` with
its operands in declared lhs-then-rhs order (for `select`: condition,
ifTrue, ifFalse) and the return type matching the opcode's output type:
`add`, `sub`, `mul` submit `Add`, `Sub`, `Mul` with `EUINT64_TFHE`; `eq`,
`and`, `or` submit `Eq`, `And`, `Or` with `EBOOL_TFHE`. -/
theorem cofhe_task_shape (env : TaskEnv) (lhs rhs c t f : Handle) :
    (CoFHE.add env lhs rhs).2 =
      [⟨Utils.EUINT64_TFHE, FunctionId.Add, [lhs, rhs], []⟩] ∧
    (CoFHE.sub env lhs rhs).2 =
      [⟨Utils.EUINT64_TFHE, FunctionId.Sub, [lhs, rhs], []⟩] ∧
    (CoFHE.mul env lhs rhs).2 =
      [⟨Utils.EUINT64_TFHE, FunctionId.Mul, [lhs, rhs], []⟩] ∧
    (CoFHE.eq env lhs rhs).2 =
      [⟨Utils.EBOOL_TFHE, FunctionId.Eq, [lhs, rhs], []⟩] ∧
    (CoFHE.and env lhs rhs).2 =
      [⟨Utils.EBOOL_TFHE, FunctionId.And, [lhs, rhs], []⟩] ∧
    (CoFHE.or env lhs rhs).2 =
      [⟨Utils.EBOOL_TFHE, FunctionId.Or, [lhs, rhs], []⟩] ∧
    (CoFHE.select env c t f).2 =
      [⟨Utils.EUINT32_TFHE, FunctionId.Select, [c, t, f], []⟩] := by
  refine ⟨?_, ?_, ?_, ?_, ?_, ?_, ?_⟩ <;>
    first
      | (simp only [CoFHE.add]; split <;> rfl)
      | (simp only [CoFHE.sub]; split <;> rfl)
      | (simp only [CoFHE.mul]; split <;> rfl)
      | (simp only [CoFHE.eq]; split <;> rfl)
      | (simp only [CoFHE.and]; split <;> rfl)
      | (simp only [CoFHE.or]; split <;> rfl)
      | (simp only [CoFHE.select]; split <;> rfl)

/-- C8 counterexample: the contract does not expose the two balance
accessors the claim asserts — the public interface contains neither
`get_amount_of_principal_token_in_shop` nor
`get_amount_of_ether_in_shop`. -/
theorem no_balance_accessors_counterexample :
    ¬("get_amount_of_principal_token_in_shop" ∈ public_functions ∧
      "get_amount_of_ether_in_shop" ∈ public_functions) := by
  decide

/-- C8 (amended): the contract's public interface exposes no read-only
balance accessor for the shop's principal-token or ether balances: the two
former accessors are absent from the nine public methods (the source
removed them precisely because they always returned a hardcoded zero). -/
theorem no_balance_accessors :
    "get_amount_of_principal_token_in_shop" ∉ public_functions ∧
    "get_amount_of_ether_in_shop" ∉ public_functions ∧
    "is_this_nonce_used" ∈ public_functions ∧
    public_functions.length = 9 := by
  decide

/-- C10: every operation of the legacy `FHE` stub struct —
`from_external`, `add`, `sub`, `mul`, `allow` — returns
`Err(OperationFailed)` on every input; none ever succeeds. -/
theorem fhe_stub_always_fails (input lhs rhs handle : Handle)
    (proof : List Nat) (account : Addr) :
    FHE.from_external input proof = .error .OperationFailed ∧
    FHE.add lhs rhs = .error .OperationFailed ∧
    FHE.sub lhs rhs = .error .OperationFailed ∧
    FHE.mul lhs rhs = .error .OperationFailed ∧
    FHE.allow handle account = .error .OperationFailed :=
  ⟨rfl, rfl, rfl, rfl, rfl⟩

/-- One contract step never unmarks a used nonce. -/
lemma step_preserves_used (env : Env) (st : EVVMCafhe) (op : Op) (A N : Nat)
    (h : is_this_nonce_used st A N = true) :
    is_this_nonce_used (step env st op) A N = true := by
  cases op with
  | opInit a o => exact h
  | opOrderCoffee c ct q tp ep n sg pf epf ne fl =>
      simp only [step, order_coffee]
      split
      · exact h
      · split
        · exact h
        · split
          · exact h
          · split
            · exact h
            · split
              · simp only [is_this_nonce_used] at h ⊢
                by_cases hc : A = c ∧ N = n
                · simp [hc]
                · rw [if_neg hc]
                  exact h
              · exact h
  | opWithdrawRewards t bal ne fl fee =>
      show is_this_nonce_used (withdraw_rewards env st t bal ne fl fee).state
        A N = true
      rw [withdraw_rewards_state]
      exact h
  | opWithdrawFunds t bal ne fl fee =>
      show is_this_nonce_used (withdraw_funds env st t bal ne fl fee).state
        A N = true
      rw [withdraw_funds_state]
      exact h

/-- A used nonce stays used along any sequence of contract calls. -/
lemma run_preserves_used (A N : Nat) (st : EVVMCafhe)
    (ops : List (Env × Op)) (h : is_this_nonce_used st A N = true) :
    is_this_nonce_used (run st ops) A N = true := by
  induction ops generalizing st with
  | nil => exact h
  | cons p rest ih =>
      cases p with
      | mk env op =>
          simp only [run]
          exact ih _ (step_preserves_used env st op A N h)

/-- C1: `order_coffee` marks the nonce only as the final step, after the
ledger `pay` call succeeded: whenever the `pay` call it issued fails, the
call returns `PaymentFailed` and the storage — the nonce entry included —
is exactly the storage before the call; the nonce entry can only be marked
when the call returned `Ok` and a successful `pay` call was issued. -/
theorem order_coffee_settles_before_marking
    (env : Env) (st : EVVMCafhe) (c : Addr) (ct : String) (q tp : Nat)
    (ep : InEuint64) (n : Nat) (sg : List Nat) (pf : Nat) (epf : InEuint64)
    (ne : Nat) (fl : Bool) :
    (∀ pa ∈ (order_coffee env st c ct q tp ep n sg pf epf ne fl).ledger_calls,
        env.pay_ok pa = false →
          (order_coffee env st c ct q tp ep n sg pf epf ne fl).res =
              .error .PaymentFailed ∧
            (order_coffee env st c ct q tp ep n sg pf epf ne fl).state = st) ∧
    (is_this_nonce_used
        (order_coffee env st c ct q tp ep n sg pf epf ne fl).state c n =
          true →
      is_this_nonce_used st c n = true ∨
        ((order_coffee env st c ct q tp ep n sg pf epf ne fl).res = .ok () ∧
          ∃ pa ∈ (order_coffee env st c ct q tp ep n sg pf epf ne
              fl).ledger_calls, env.pay_ok pa = true)) := by
  simp only [order_coffee]
  split
  · exact ⟨by simp, fun h => Or.inl h⟩
  · split
    · exact ⟨by simp, fun h => Or.inl h⟩
    · split
      · exact ⟨by simp, fun h => Or.inl h⟩
      · split
        · exact ⟨by simp, fun h => Or.inl h⟩
        · split
          · rename_i hpay
            refine ⟨?_, ?_⟩
            · intro pa hpa hfalse
              simp only [List.mem_singleton] at hpa
              subst hpa
              rw [hpay] at hfalse
              cases hfalse
            · intro _
              exact Or.inr ⟨rfl, ⟨_, List.mem_singleton.mpr rfl, hpay⟩⟩
          · refine ⟨?_, ?_⟩
            · intro pa hpa _
              exact ⟨rfl, rfl⟩
            · intro h
              exact Or.inl h

/-- Witness for C1: a fault-injected ledger rejects the payment; the order
fails with `PaymentFailed` and storage, nonce included, is untouched. -/
theorem order_coffee_settles_before_marking_witness :
    (order_coffee envPayFail stC 0 "Latte" 2 500 epC 7 sigC 0 epC 9
        true).res = .error .PaymentFailed ∧
    (order_coffee envPayFail stC 0 "Latte" 2 500 epC 7 sigC 0 epC 9
        true).state = stC := by
  have h := (order_coffee_settles_before_marking envPayFail stC 0 "Latte" 2
    500 epC 7 sigC 0 epC 9 true).1
  exact h
    { from_addr := 0, to_addr := 9, to_identity := "", token := 0,
      amount_plaintext := 500, amount_ct_hash := 0, amount_security_zone := 0,
      amount_utype := 0, amount_signature := [], priority_fee_plaintext := 0,
      fee_ct_hash := 0, fee_security_zone := 0, fee_utype := 0,
      fee_signature := [], nonce := 9, priority_flag := true, executor := 0,
      signature := [] } (by decide) rfl

/-- C2: once (A, N) is marked used, `is_this_nonce_used` stays true in every
state reachable by any sequence of contract calls, and a later
`order_coffee` for (A, N) that passes signature verification returns
`NonceAlreadyUsed` before any ledger `pay` call, with storage unchanged. -/
theorem nonce_used_is_permanent (A : Addr) (N : Nat) (st : EVVMCafhe)
    (ops : List (Env × Op)) (env : Env) (ct : String) (q tp : Nat)
    (ep : InEuint64) (sg : List Nat) (pf : Nat) (epf : InEuint64)
    (ne : Nat) (fl : Bool)
    (hused : is_this_nonce_used st A N = true) :
    is_this_nonce_used (run st ops) A N = true ∧
    ∀ eid, env.evvm_id = some eid →
      signature_verification env.sig (toString eid) "orderCoffee"
          (ct ++ "," ++ toString q ++ "," ++ toString tp ++ "," ++ toString N)
          sg A = .ok true →
      order_coffee env st A ct q tp ep N sg pf epf ne fl =
        ⟨.error .NonceAlreadyUsed, st, []⟩ := by
  refine ⟨run_preserves_used A N st ops hused, ?_⟩
  intro eid heid hsig
  simp only [is_this_nonce_used] at hused
  simp only [order_coffee, heid]
  rw [hsig]
  simp [hused]

/-- Witness for C2: with nonce 7 already used by client 0, a later call
sequence keeps it used, and replaying nonce 7 with a verifying signature is
rejected with `NonceAlreadyUsed` and no ledger call. -/
theorem nonce_used_is_permanent_witness :
    is_this_nonce_used (run stUsed [(envPayOk, Op.opInit 5 6)]) 0 7 = true ∧
    order_coffee envPayOk stUsed 0 "Latte" 2 500 epC 7 sigC 0 epC 9 true =
      ⟨.error .NonceAlreadyUsed, stUsed, []⟩ := by
  have h := nonce_used_is_permanent 0 7 stUsed [(envPayOk, Op.opInit 5 6)]
    envPayOk "Latte" 2 500 epC sigC 0 epC 9 true (by decide)
  exact ⟨h.1, h.2 1 rfl rfl⟩

/-- C3: `order_coffee` accepts an order only if signer recovery over exactly
the canonical comma-joined message
`"<evvmID>,orderCoffee,<coffeeType>,<quantity>,<totalPrice>,<nonce>"`
yields the client address; whenever the recovered signer differs from
`client_address` it returns `InvalidSignature` with unchanged storage; and
the digest `recover_signer` uses is keccak256 of the fixed prefix
`"\x19Ethereum Signed Message:\n"`, the decimal byte length, then the
message. -/
theorem order_coffee_canonical_message
    (env : Env) (st : EVVMCafhe) (c : Addr) (ct : String) (q tp : Nat)
    (ep : InEuint64) (n : Nat) (sg : List Nat) (pf : Nat) (epf : InEuint64)
    (ne : Nat) (fl : Bool) (eid : Nat) (heid : env.evvm_id = some eid) :
    ((order_coffee env st c ct q tp ep n sg pf epf ne fl).res = .ok () →
      recover_signer env.sig
        (canonical_order_message (toString eid) ct (toString q) (toString tp)
          (toString n)) sg = .ok c) ∧
    (∀ a, recover_signer env.sig
        (canonical_order_message (toString eid) ct (toString q) (toString tp)
          (toString n)) sg = .ok a → a ≠ c →
      (order_coffee env st c ct q tp ep n sg pf epf ne fl).res =
          .error .InvalidSignature ∧
        (order_coffee env st c ct q tp ep n sg pf epf ne fl).state = st) ∧
    (∀ m : String, recover_signer env.sig m sg =
      match split_signature sg with
      | .error e => .error e
      | .ok (r, s, v) =>
          ecrecover env.sig (env.sig.keccak
            ("\x19Ethereum Signed Message:\n" ++ toString m.utf8ByteSize ++
              m)) v r s) := by
  have hmsg := order_message_eq (toString eid) ct (toString q) (toString tp)
    (toString n)
  have hsv : signature_verification env.sig (toString eid) "orderCoffee"
      (ct ++ "," ++ toString q ++ "," ++ toString tp ++ "," ++ toString n)
      sg c =
      match recover_signer env.sig (canonical_order_message (toString eid) ct
          (toString q) (toString tp) (toString n)) sg with
      | .error e => .error e
      | .ok a => .ok (a == c) := by
    simp only [signature_verification]
    rw [hmsg]
  refine ⟨?_, ?_, ?_⟩
  · intro hok
    rcases hrec : recover_signer env.sig (canonical_order_message
        (toString eid) ct (toString q) (toString tp) (toString n)) sg with
      e | a
    · exfalso
      rw [hrec] at hsv
      simp only [order_coffee, heid, hsv] at hok
      simp at hok
    · rw [hrec] at hsv
      by_cases hac : a = c
      · rw [hac]
      · exfalso
        have hbeq : (a == c) = false := by
          simp [hac]
        simp only [order_coffee, heid, hsv, hbeq] at hok
        simp at hok
  · intro a hrec hac
    have hbeq : (a == c) = false := by
      simp [hac]
    rw [hrec] at hsv
    simp only [order_coffee, heid, hsv, hbeq]
    simp
  · intro m
    rfl

/-- Witness for C3: the concrete environment recovers signer 0; for the
mismatching client address 5 the order fails with `InvalidSignature` and
storage is unchanged. -/
theorem order_coffee_canonical_message_witness :
    (order_coffee envPayOk stC 5 "Latte" 2 500 epC 7 sigC 0 epC 9
        true).res = .error .InvalidSignature ∧
    (order_coffee envPayOk stC 5 "Latte" 2 500 epC 7 sigC 0 epC 9
        true).state = stC := by
  have h := (order_coffee_canonical_message envPayOk stC 5 "Latte" 2 500 epC
    7 sigC 0 epC 9 true 1 rfl).2.1
  exact h 0 rfl (by decide)

/-- C9: a successful `order_coffee` changes exactly the one nonce entry
(client, nonce), set to true, and never the EVVM core or owner addresses; a
failed one changes nothing; `withdraw_rewards` and `withdraw_funds` leave
the storage entirely unchanged in every case. -/
theorem storage_frame
    (env : Env) (st : EVVMCafhe) (c : Addr) (ct : String) (q tp : Nat)
    (ep : InEuint64) (n : Nat) (sg : List Nat) (pf : Nat) (epf : InEuint64)
    (ne : Nat) (fl : Bool) (t : Addr) (bal : InEuint64) (ne2 : Nat)
    (fl2 : Bool) (fee : InEuint64) :
    ((order_coffee env st c ct q tp ep n sg pf epf ne fl).res = .ok () →
      (order_coffee env st c ct q tp ep n sg pf epf ne
          fl).state.check_async_nonce c n = true ∧
        ∀ a m, ¬(a = c ∧ m = n) →
          (order_coffee env st c ct q tp ep n sg pf epf ne
              fl).state.check_async_nonce a m = st.check_async_nonce a m) ∧
    ((order_coffee env st c ct q tp ep n sg pf epf ne fl).res ≠ .ok () →
      (order_coffee env st c ct q tp ep n sg pf epf ne fl).state = st) ∧
    (order_coffee env st c ct q tp ep n sg pf epf ne fl).state.evvm_core =
      st.evvm_core ∧
    (order_coffee env st c ct q tp ep n sg pf epf ne
      fl).state.owner_of_shop = st.owner_of_shop ∧
    (withdraw_rewards env st t bal ne2 fl2 fee).state = st ∧
    (withdraw_funds env st t bal ne2 fl2 fee).state = st := by
  simp only [order_coffee]
  split
  · refine ⟨?_, fun _ => rfl, rfl, rfl,
      withdraw_rewards_state env st t bal ne2 fl2 fee,
      withdraw_funds_state env st t bal ne2 fl2 fee⟩
    intro h
    exact absurd h (by simp)
  · split
    · refine ⟨?_, fun _ => rfl, rfl, rfl,
        withdraw_rewards_state env st t bal ne2 fl2 fee,
        withdraw_funds_state env st t bal ne2 fl2 fee⟩
      intro h
      exact absurd h (by simp)
    · split
      · refine ⟨?_, fun _ => rfl, rfl, rfl,
          withdraw_rewards_state env st t bal ne2 fl2 fee,
          withdraw_funds_state env st t bal ne2 fl2 fee⟩
        intro h
        exact absurd h (by simp)
      · split
        · refine ⟨?_, fun _ => rfl, rfl, rfl,
            withdraw_rewards_state env st t bal ne2 fl2 fee,
            withdraw_funds_state env st t bal ne2 fl2 fee⟩
          intro h
          exact absurd h (by simp)
        · split
          · refine ⟨?_, ?_, rfl, rfl,
              withdraw_rewards_state env st t bal ne2 fl2 fee,
              withdraw_funds_state env st t bal ne2 fl2 fee⟩
            · intro _
              refine ⟨by simp, ?_⟩
              intro a m hne
              simp only []
              rw [if_neg hne]
            · intro hcon
              exact absurd rfl hcon
          · refine ⟨?_, fun _ => rfl, rfl, rfl,
              withdraw_rewards_state env st t bal ne2 fl2 fee,
              withdraw_funds_state env st t bal ne2 fl2 fee⟩
            intro h
            exact absurd h (by simp)

/-- Witness for C9: a successful concrete order marks exactly its nonce
entry, and a concrete withdrawal leaves storage untouched. -/
theorem storage_frame_witness :
    (order_coffee envPayOk stC 0 "Latte" 2 500 epC 7 sigC 0 epC 9
        true).state.check_async_nonce 0 7 = true ∧
    (withdraw_rewards envPayOk stC 1 epC 0 false epC).state = stC := by
  have h := storage_frame envPayOk stC 0 "Latte" 2 500 epC 7 sigC 0 epC 9
    true 1 epC 0 false epC
  exact ⟨(h.1 rfl).1, h.2.2.2.2.1⟩

end EVVMCafheModel
